import Mathlib

/-!
# A verification model of the gonv value-coercion library

This file gives a shallow embedding, in Lean 4, of the core of the `gonv`
Go library (type-coercion dispatch engines) and proves properties of the
embedded definitions.

Layout:
* machine-integer wrapping helpers and exact binary floating-point rounding
  over `ℚ` (Go `float32`/`float64` values are represented by their exact
  rational value);
* models of the Go standard-library leaf functions the engines call
  (`strconv.ParseBool`, `strconv.ParseInt`/`ParseUint` with base
  auto-detection, `strconv.ParseFloat`, `strconv.FormatInt`,
  `strconv.FormatFloat` with shortest (`prec = -1`) formatting,
  `time.ParseDuration`, `time.Duration.String`, time rendering);
* the dynamic value universe `GoVal` (the shapes of `any` values the
  engines recognize) and the embedded engines themselves, translated
  case-cascade by case-cascade from the Go sources (`bool.go`, `int.go`,
  `uint.go`, `float.go`, `string.go`, `duration.go`, `time.go`,
  `slice.go`, `interface.go`, `utils.go`);
* theorems settling the specification claims.
-/

namespace Gonv

/-! ## Machine integer helpers

Go's integer conversions truncate (two's complement wrap-around). -/

/-- Two's-complement wrap of an integer into a signed `w`-bit value,
modelling Go's `E(x)` conversion for a signed target type of width `w`. -/
def signedWrap (w : Nat) (v : Int) : Int :=
  ((v + 2 ^ (w - 1)) % 2 ^ w) - 2 ^ (w - 1)

/-- Wrap of an integer into an unsigned `w`-bit value, modelling Go's
`E(x)` conversion for an unsigned target type of width `w`. -/
def uintWrap (w : Nat) (v : Int) : Nat :=
  (v % 2 ^ w).toNat

/-- Truncation of a rational toward zero, modelling Go's float-to-integer
conversion (for in-range values). -/
def ratTrunc (q : ℚ) : Int :=
  q.num.tdiv q.den

/-! ## Exact binary floating-point rounding

Go `float32` / `float64` values are dyadic rationals; we store them as
exact members of `ℚ`.  `floatRound mbits q` rounds an arbitrary rational
to the nearest binary floating-point value with an `mbits`-bit mantissa
(round half to even), which is the rounding performed by Go conversions
and by `strconv.ParseFloat`.  Subnormals and overflow are outside the
range exercised here and are not modelled. -/

/-- Number of binary digits of a natural number (`0` for `0`),
fuel-driven so that it evaluates by kernel reduction. -/
def bitLenAux (fuel n : Nat) : Nat :=
  match fuel with
  | 0 => 0
  | fuel + 1 => if n = 0 then 0 else bitLenAux fuel (n / 2) + 1

/-- Number of binary digits of a natural number. -/
def bitLen (n : Nat) : Nat := bitLenAux 4096 n

/-- Round the fraction `a / b` (with `0 < b`) to the nearest natural
number, ties to even. -/
def roundHENat (a b : Nat) : Nat :=
  let q := a / b
  let r := a % b
  if 2 * r < b then q
  else if b < 2 * r then q + 1
  else if q % 2 = 0 then q else q + 1

/-- Decides `n / d < 2 ^ e` (for `0 < d`) in integer arithmetic. -/
def fracLtPow2 (n d : Nat) (e : Int) : Bool :=
  if 0 ≤ e then n < 2 ^ e.toNat * d else n * 2 ^ (-e).toNat < d

/-- For `0 < n / d`, the exponent `e` with `2 ^ (e-1) ≤ n / d < 2 ^ e`. -/
def fracExp2 (n d : Nat) : Int :=
  let e0 : Int := (bitLen n : Int) - (bitLen d : Int)
  if fracLtPow2 n d e0 then e0 else e0 + 1

/-- Round the positive fraction `n / d` to the nearest binary float with
an `mbits`-bit mantissa (ties to even), as a mantissa/exponent pair
`(m, ulpExp)` denoting `m * 2 ^ ulpExp`. -/
def floatRoundFrac (mbits : Nat) (n d : Nat) : Nat × Int :=
  let e := fracExp2 n d
  let k := (mbits : Int) - e
  let (a, b) := if 0 ≤ k then (n * 2 ^ k.toNat, d) else (n, d * 2 ^ (-k).toNat)
  (roundHENat a b, e - (mbits : Int))

/-- The rational `m * 2 ^ ulpExp`. -/
def dyadicQ (m : Nat) (ulpExp : Int) : ℚ :=
  if 0 ≤ ulpExp then mkRat (m * 2 ^ ulpExp.toNat) 1 else mkRat m (2 ^ (-ulpExp).toNat)

/-- Round a rational to the nearest binary float with an `mbits`-bit
mantissa (round half to even); `mbits = 24` models `float32`,
`mbits = 53` models `float64`.  Subnormals and overflow are outside the
range exercised here and are not modelled.  The rounding performed by Go
conversions and by `strconv.ParseFloat`. -/
def floatRound (mbits : Nat) (q : ℚ) : ℚ :=
  if q.num = 0 then 0
  else
    let p := floatRoundFrac mbits q.num.natAbs q.den
    if q.num < 0 then Rat.neg (dyadicQ p.1 p.2) else dyadicQ p.1 p.2

/-! ## Decimal digit rendering (strconv.FormatInt / Itoa, base 10) -/

/-- `strconv.FormatBool`. -/
def goFormatBool (b : Bool) : String :=
  if b then "true" else "false"

/-- Base-10 rendering of an integer; models `strconv.FormatInt(x, 10)`
and `strconv.Itoa`. -/
def goFormatInt (v : Int) : String :=
  if v < 0 then "-" ++ Nat.repr v.natAbs else Nat.repr v.toNat

/-! ## strconv.ParseBool -/

/-- Parse-error model for the strconv / time leaf parsers. -/
inductive PErr where
  | synErr (fn s : String)
  | rangeErr (fn s : String)
  | otherErr
  deriving Repr, DecidableEq

/-- `strconv.ParseBool`: accepts exactly
1, t, T, TRUE, true, True / 0, f, F, FALSE, false, False. -/
def goParseBool (s : String) : Except PErr Bool :=
  if s = "1" ∨ s = "t" ∨ s = "T" ∨ s = "TRUE" ∨ s = "true" ∨ s = "True" then
    .ok true
  else if s = "0" ∨ s = "f" ∨ s = "F" ∨ s = "FALSE" ∨ s = "false" ∨ s = "False" then
    .ok false
  else .error (.synErr "ParseBool" s)

/-! ## strconv.ParseUint / ParseInt with base auto-detection (base = 0)

The engines always call these with `base = 0` and `bitSize = 0`
(64 bits).  Base auto-detection: `0b`/`0o`/`0x` prefixes, a bare leading
`0` meaning octal, underscores permitted between digits and after a
prefix.  Overflow past 64 bits is a range error.  (Go flags overflow
during the digit loop; here it is checked after the loop — observably
the same accept/reject behavior for the engines, which only test
`err != nil`.) -/

/-- Lower-case a single ASCII letter. -/
def lowerC (c : Char) : Char :=
  if 'A' ≤ c ∧ c ≤ 'Z' then Char.ofNat (c.toNat + 32) else c

/-- Digit value of a character for bases up to 16. -/
def digitVal (c : Char) : Option Nat :=
  if '0' ≤ c ∧ c ≤ '9' then some (c.toNat - '0'.toNat)
  else if 'a' ≤ c ∧ c ≤ 'f' then some (c.toNat - 'a'.toNat + 10)
  else if 'A' ≤ c ∧ c ≤ 'F' then some (c.toNat - 'A'.toNat + 10)
  else none

/-- Digit-accumulation loop shared by `ParseUint`/`ParseInt`.
`auto` records that the base was auto-detected (underscores allowed);
`saw` records whether the previous character was a digit (underscores
must sit between digits, and the string must end with a digit). -/
def goDigits (base : Nat) (auto : Bool) : Bool → Nat → List Char → Option Nat
  | saw, acc, [] => if saw then some acc else none
  | saw, acc, c :: cs =>
    if c = '_' then
      if auto ∧ saw then goDigits base auto false acc cs else none
    else match digitVal c with
      | some d => if d < base then goDigits base auto true (acc * base + d) cs else none
      | none => none

/-- `strconv.ParseUint(s, 0, 64)` on the character list of `s`:
base auto-detection, then the digit loop, then the 64-bit range check. -/
def goParseUint0L (l : List Char) : Except PErr Nat :=
  let failSyn : Except PErr Nat := .error (.synErr "ParseUint" (String.mk l))
  match l with
  | [] => failSyn
  | c :: rest =>
    let scan : Nat → Bool → List Char → Except PErr Nat := fun base sawPrefix body =>
      match goDigits base true sawPrefix 0 body with
      | none => failSyn
      | some n => if n < 2 ^ 64 then .ok n else .error (.rangeErr "ParseUint" (String.mk l))
    if c = '0' then
      match rest with
      | c1 :: c2 :: body =>
        -- a prefix branch requires at least three characters in Go
        if lowerC c1 = 'b' then scan 2 true (c2 :: body)
        else if lowerC c1 = 'o' then scan 8 true (c2 :: body)
        else if lowerC c1 = 'x' then scan 16 true (c2 :: body)
        else scan 8 true rest     -- legacy octal: "0…"
      | _ => scan 8 true rest     -- "0" or "0d": legacy octal
    else scan 10 false l

/-- `strconv.ParseUint(s, 0, 64)`. -/
def goParseUint0 (s : String) : Except PErr Nat := goParseUint0L s.data

/-- `strconv.ParseInt(s, 0, 64)`: strip an optional sign, run the
unsigned parser, check the signed 64-bit range. -/
def goParseInt0L (l : List Char) : Except PErr Int :=
  let core : Bool → List Char → Except PErr Int := fun neg body =>
    match goParseUint0L body with
    | .error _ => .error (.synErr "ParseInt" (String.mk l))
    | .ok n =>
      if neg then
        if n ≤ 2 ^ 63 then .ok (-(n : Int)) else .error (.rangeErr "ParseInt" (String.mk l))
      else
        if n < 2 ^ 63 then .ok (n : Int) else .error (.rangeErr "ParseInt" (String.mk l))
  match l with
  | [] => .error (.synErr "ParseInt" (String.mk l))
  | c :: rest =>
    if c = '+' then core false rest
    else if c = '-' then core true rest
    else core false l

/-- `strconv.ParseInt(s, 0, 64)`. -/
def goParseInt0 (s : String) : Except PErr Int := goParseInt0L s.data

/-! ## strconv.ParseFloat(s, 64)

Decimal / scientific syntax parsed exactly and rounded to the nearest
`float64` (53-bit mantissa, ties to even).  The hexadecimal-float,
`Inf`/`NaN` and underscore forms of the Go grammar are outside the
fragment exercised here and are treated as syntax errors. -/

/-- Consume leading decimal digits; returns the accumulated value, the
number of digits consumed, and the rest of the input. -/
def scanDigits : Nat → Nat → List Char → Nat × Nat × List Char
  | acc, n, [] => (acc, n, [])
  | acc, n, c :: cs =>
    if '0' ≤ c ∧ c ≤ '9' then scanDigits (acc * 10 + (c.toNat - '0'.toNat)) (n + 1) cs
    else (acc, n, c :: cs)

/-- The rational `m * 10 ^ e`. -/
def decimalQ (m : Nat) (e : Int) : ℚ :=
  if 0 ≤ e then mkRat (m * 10 ^ e.toNat) 1 else mkRat m (10 ^ (-e).toNat)

/-- The mantissa/exponent part of `ParseFloat` on a sign-free input:
`digits [. digits] [e|E [sign] digits]`, as the digits value and the
base-10 exponent of their last digit. -/
def goParseFloatBody (l : List Char) : Option (Nat × Int) :=
  let (ip, ipn, rest) := scanDigits 0 0 l
  let (fp, fpn, tail) :=
    match rest with
    | '.' :: cs => scanDigits 0 0 cs
    | _ => (0, 0, rest)
  if ipn + fpn = 0 then none
  else
    let mant := ip * 10 ^ fpn + fp
    match tail with
    | [] => some (mant, -(fpn : Int))
    | 'e' :: cs | 'E' :: cs =>
      let (neg, ds) :=
        match cs with
        | '-' :: ds => (true, ds)
        | '+' :: ds => (false, ds)
        | ds => (false, ds)
      let (ev, en, rst) := scanDigits 0 0 ds
      if en = 0 ∨ rst ≠ [] then none
      else some (mant, (if neg then -(ev : Int) else (ev : Int)) - (fpn : Int))
    | _ => none

/-- `strconv.ParseFloat(s, 64)`: exact decimal value rounded to the
nearest `float64`. -/
def goParseFloat64 (s : String) : Except PErr ℚ :=
  match s.data with
  | [] => .error (.synErr "ParseFloat" s)
  | c :: rest =>
    let body := if c = '+' ∨ c = '-' then rest else c :: rest
    match goParseFloatBody body with
    | none => .error (.synErr "ParseFloat" s)
    | some (m, e) =>
      let q := floatRound 53 (decimalQ m e)
      .ok (if c = '-' then Rat.neg q else q)

/-! ## strconv.FormatFloat(f, 'f', -1, bitSize)

With precision `-1`, Go documents: "the smallest number of digits
necessary to represent the value uniquely" — i.e. the shortest decimal
string that `ParseFloat` at the same bit size parses back to the exact
value, written here in `'f'` (no-exponent) form.  The search below tries
digit counts `1, 2, …`; at each count it takes the decimal closest to
the value and keeps it if it round-trips.  (At the concrete values
evaluated in this file the shortest round-tripping decimal is unique,
so no tie-breaking subtleties arise.) -/

/-- Decides `n / d < 10 ^ e` (for `0 < d`) in integer arithmetic. -/
def fracLtPow10 (n d : Nat) (e : Int) : Bool :=
  if 0 ≤ e then n < 10 ^ e.toNat * d else n * 10 ^ (-e).toNat < d

/-- For `0 < n / d`, the exponent `e` with `10 ^ e ≤ n / d < 10 ^ (e+1)`. -/
def fracExp10 (n d : Nat) : Int :=
  let e0 : Int := ((Nat.repr n).length : Int) - ((Nat.repr d).length : Int)
  if fracLtPow10 n d e0 then e0 - 1 else e0

/-- Render the decimal `m * 10 ^ s` in `'f'` form. -/
def renderDec (m : Nat) (s : Int) : String :=
  if 0 ≤ s then Nat.repr m ++ String.mk (List.replicate s.toNat '0')
  else
    let ds := Nat.repr m
    let f := (-s).toNat
    if ds.length ≤ f then
      "0." ++ String.mk (List.replicate (f - ds.length) '0') ++ ds
    else
      String.mk (ds.data.take (ds.length - f)) ++ "." ++
        String.mk (ds.data.drop (ds.length - f))

/-- Does the decimal `m * 10 ^ s` round (at `mbits` bits) back to the
positive value `n / d`?  The round-trip test of shortest formatting. -/
def roundTrips (mbits : Nat) (m : Nat) (s : Int) (n d : Nat) : Bool :=
  if m = 0 then false
  else
    let (cn, cd) := if 0 ≤ s then (m * 10 ^ s.toNat, 1) else (m, 10 ^ (-s).toNat)
    let (m2, u2) := floatRoundFrac mbits cn cd
    if 0 ≤ u2 then m2 * 2 ^ u2.toNat * d = n else m2 * d = n * 2 ^ (-u2).toNat

/-- Shortest-round-trip search for the positive value `n / d`: try digit
counts `dig = 1, 2, …` (fuel-bounded); `de` is `fracExp10 n d`.  At each
count the decimal nearest the value is tested for round-trip. -/
def shortestPosFrac (mbits : Nat) (n d : Nat) (de : Int) : Nat → Nat → String
  | _, 0 => ""
  | dig, fuel + 1 =>
    let s : Int := de + 1 - (dig : Int)
    let (a, b) := if 0 ≤ s then (n, d * 10 ^ s.toNat) else (n * 10 ^ (-s).toNat, d)
    let m := roundHENat a b
    if roundTrips mbits m s n d then renderDec m s
    else shortestPosFrac mbits n d de (dig + 1) fuel

/-- `strconv.FormatFloat(f, 'f', -1, bitSize)` where `mbits` is the
mantissa width of `bitSize` (24 for 32, 53 for 64).  With precision
`-1` Go documents the smallest number of digits such that `ParseFloat`
at the same bit size returns the value exactly; the search below
realizes that contract (at the values evaluated in this file the
shortest round-tripping decimal is unique). -/
def goFormatFloat (mbits : Nat) (q : ℚ) : String :=
  if q.num = 0 then "0"
  else
    let n := q.num.natAbs
    let core := shortestPosFrac mbits n q.den (fracExp10 n q.den) 1 32
    if q.num < 0 then "-" ++ core else core

/-! ## time.Duration values

`time.Duration` is an `int64` count of nanoseconds. -/

/-- Trim trailing `'0'` characters (used when printing fractional
seconds). -/
def trimRightZeros (l : List Char) : List Char :=
  (l.reverse.dropWhile (· = '0')).reverse

/-- Left-pad a decimal rendering with zeros to `w` digits. -/
def padZ (w n : Nat) : String :=
  let ds := Nat.repr n
  String.mk (List.replicate (w - ds.length) '0') ++ ds

/-- Fractional part `.ddd…` with trailing zeros removed; empty when the
fraction is zero.  Models the `fmtFrac` step of `time.Duration.String`. -/
def fracPart (scaleDigits v : Nat) : String :=
  if v = 0 then ""
  else "." ++ String.mk (trimRightZeros (padZ scaleDigits v).data)

/-- `time.Duration.String`: "0s", sub-second renderings in ns/µs/ms,
otherwise `[-][Xh][Xm]X[.frac]s`. -/
def goDurationString (d : Int) : String :=
  if d = 0 then "0s"
  else
    let sign := if d < 0 then "-" else ""
    let v := d.natAbs
    if v < 1000 then sign ++ Nat.repr v ++ "ns"
    else if v < 1000000 then sign ++ Nat.repr (v / 1000) ++ fracPart 3 (v % 1000) ++ "µs"
    else if v < 1000000000 then sign ++ Nat.repr (v / 1000000) ++ fracPart 6 (v % 1000000) ++ "ms"
    else
      let secs := v / 1000000000
      let sPart := Nat.repr (secs % 60) ++ fracPart 9 (v % 1000000000) ++ "s"
      let m := secs / 60
      if m = 0 then sign ++ sPart
      else
        let mPart := Nat.repr (m % 60) ++ "m"
        let h := m / 60
        if h = 0 then sign ++ mPart ++ sPart
        else sign ++ Nat.repr h ++ "h" ++ mPart ++ sPart

/-! ## time.ParseDuration

Grammar: `[-+]? (digits [. digits]? unit)+` with units
ns, us, µs, μs, ms, s, m, h; "0" alone is also accepted.  Fractional
parts are scaled through the unit (Go does this step in binary floating
point; the exact integer quotient used here agrees on the inputs
exercised).  Overflow checking is not modelled. -/

/-- Nanoseconds per unit; `none` for an unknown unit. -/
def unitScale : List Char → Option (Nat × List Char)
  | 'n' :: 's' :: r => some (1, r)
  | 'u' :: 's' :: r => some (1000, r)
  | 'µ' :: 's' :: r => some (1000, r)
  | 'μ' :: 's' :: r => some (1000, r)
  | 'm' :: 's' :: r => some (1000000, r)
  | 's' :: r => some (1000000000, r)
  | 'm' :: r => some (60000000000, r)
  | 'h' :: r => some (3600000000000, r)
  | _ => none

/-- One `digits [. digits]? unit` group; returns nanoseconds and the
rest of the input. -/
def durGroup (l : List Char) : Option (Nat × List Char)
  :=
  let (ip, ipn, rest) := scanDigits 0 0 l
  let (fp, fpn, rest') :=
    match rest with
    | '.' :: cs => scanDigits 0 0 cs
    | _ => (0, 0, rest)
  if ipn = 0 ∧ fpn = 0 then none
  else match unitScale rest' with
    | none => none
    | some (u, r) => some (ip * u + fp * u / 10 ^ fpn, r)

/-- All groups, fuel-bounded by the input length. -/
def durGroups : Nat → Nat → List Char → Option Nat
  | acc, _, [] => some acc
  | _, 0, _ => none
  | acc, fuel + 1, l =>
    match durGroup l with
    | none => none
    | some (v, r) => durGroups (acc + v) fuel r

/-- `time.ParseDuration`. -/
def goParseDuration (s : String) : Except PErr Int :=
  let (neg, body) :=
    match s.data with
    | '-' :: r => (true, r)
    | '+' :: r => (false, r)
    | r => (false, r)
  if body = ['0'] then .ok 0
  else match durGroups 0 (body.length + 1) body with
    | none => .error (.synErr "ParseDuration" s)
    | some v => .ok (if neg then -(v : Int) else (v : Int))

/-! ## time.Time values

Only the epoch instant matters to the embedded engines, so a `time.Time`
is modelled by its Unix seconds and the nanosecond part (the engines
receive and return instants; location data only feeds the textual layout
parser, which is a parameter).  The zero `time.Time` (January 1, year 1,
00:00:00 UTC) has Unix seconds `-62135596800`. -/

structure GoTime where
  unixSec : Int
  nsec : Int
  deriving Repr, DecidableEq

/-- `time.Time{}` — the zero value of `time.Time`. -/
def GoTime.zero : GoTime := ⟨-62135596800, 0⟩

/-- `time.Unix(sec, nsec)`. -/
def timeUnix (sec nsec : Int) : GoTime := ⟨sec, nsec⟩

/-- `Time.UnixMilli()`: `unixSec * 1000 + nsec / 1e6` (the nanosecond
part of a `time.Time` lies in `[0, 1e9)`). -/
def GoTime.unixMilli (t : GoTime) : Int :=
  t.unixSec * 1000 + t.nsec.tdiv 1000000

/-- Civil calendar date from a day count relative to 1970-01-01
(Gregorian, proleptic): returns `(year, month, day)`. -/
def civilFromDays (z0 : Int) : Int × Nat × Nat :=
  let z := z0 + 719468
  let era := z.fdiv 146097
  let doe := (z - era * 146097).toNat
  let yoe := (doe - doe / 1460 + doe / 36524 - doe / 146096) / 365
  let y : Int := (yoe : Int) + era * 400
  let doy := doe - (365 * yoe + yoe / 4 - yoe / 100)
  let mp := (5 * doy + 2) / 153
  let d := doy - (153 * mp + 2) / 5 + 1
  let m := if mp < 10 then mp + 3 else mp - 9
  (if m ≤ 2 then y + 1 else y, m, d)

/-- Calendar fields of an instant (UTC): year, month, day, hour, minute,
second. -/
def timeFields (t : GoTime) : Int × Nat × Nat × Nat × Nat × Nat :=
  let days := t.unixSec.fdiv 86400
  let sod := (t.unixSec - days * 86400).toNat
  let (y, m, d) := civilFromDays days
  (y, m, d, sod / 3600, sod / 60 % 60, sod % 60)

/-- Pad a year to four digits. -/
def padY (y : Int) : String := padZ 4 y.toNat

/-- `Time.Format(time.RFC3339)` for a UTC instant (the engines'
`DefaultTimeFormat`); the sub-second part is dropped and the zone
renders as `Z`, as Go does for UTC. -/
def goTimeRFC3339 (t : GoTime) : String :=
  let (y, m, d, hh, mm, ss) := timeFields t
  padY y ++ "-" ++ padZ 2 m ++ "-" ++ padZ 2 d ++ "T" ++
    padZ 2 hh ++ ":" ++ padZ 2 mm ++ ":" ++ padZ 2 ss ++ "Z"

/-- `Time.String()` for a UTC instant:
`YYYY-MM-DD HH:MM:SS[.frac] +0000 UTC`. -/
def goTimeString (t : GoTime) : String :=
  let (y, m, d, hh, mm, ss) := timeFields t
  padY y ++ "-" ++ padZ 2 m ++ "-" ++ padZ 2 d ++ " " ++
    padZ 2 hh ++ ":" ++ padZ 2 mm ++ ":" ++ padZ 2 ss ++
    fracPart 9 t.nsec.toNat ++ " +0000 UTC"

/-- A `*time.Location` argument; the engines only hand it to the layout
parser. -/
inductive Loc where
  | utc
  | named (s : String)
  deriving Repr, DecidableEq

/-! ## The dynamic value universe

A `GoVal` is the shape of an `any` argument as seen by the engines'
type switches.  Concrete types with identical switch arms are merged:
`vint` stands for any of `int`, `int64`, `int32`, `int16`, `int8`
(every engine handles the five with the same body), `vuint` for the
five unsigned widths.  Floats carry their exact rational value.
Interface capabilities are represented by dedicated constructors:
`vstringer` is a struct-based type implementing `fmt.Stringer`,
`vvaluer`/`vvaluerErr` a `driver.Valuer` whose `Value()` succeeds /
fails, and `vstringerValuer` a type implementing both interfaces —
which of the two type-switch arms captures it depends on each engine's
case order.  `vnamed` is a user-defined named type reaching the
reflection slow path, carrying its underlying kind and value.
`json.Number`, `time.Weekday`, `time.Month`, the `html/template`
string kinds and the text/JSON marshaler capabilities are not part of
the modelled universe. -/

inductive NamedKind where
  | nbool (b : Bool)
  | nint (v : Int)
  | nuint (v : Nat)
  | nfloat32 (q : ℚ)
  | nfloat64 (q : ℚ)
  | nstring (s : String)
  | nbytes (s : String)
  | nother
  deriving Repr

/-- Go dynamic element type of a slice value, used for the
`o.(S)` exact-match test in `toSliceE`. -/
inductive ElemTag where
  | tBool
  | tInt64
  | tString
  | tOther
  deriving Repr, DecidableEq

inductive GoVal where
  | vnil
  | vbool (b : Bool)
  | vint (v : Int)
  | vuint (v : Nat)
  | vfloat64 (q : ℚ)
  | vfloat32 (q : ℚ)
  | vstring (s : String)
  | vbytes (s : String)
  | vduration (d : Int)
  | vtime (t : GoTime)
  | vstringer (s : String)
  | vvaluer (g : GoVal)
  | vvaluerErr
  | vstringerValuer (s : String) (g : GoVal)
  | vdurpb (d : Int)
  | vtspb (sec nsec : Int)
  | vwBool (b : Bool)
  | vwInt32 (v : Int)
  | vwInt64 (v : Int)
  | vwUInt32 (v : Nat)
  | vwUInt64 (v : Nat)
  | vwFloat (q : ℚ)
  | vwDouble (q : ℚ)
  | vwString (s : String)
  | vwBytes (s : String)
  | vnamed (k : NamedKind)
  | vslice (tag : ElemTag) (xs : List GoVal)
  | vmap (entries : List (GoVal × GoVal))
  deriving Repr

/-- Conversion error model (`format.go`): `failedCastValue` builds a
"failed to cast" error from the offending value, `failedCastErrValue`
additionally wraps an underlying error. -/
inductive GoErr where
  | failedCast (v : GoVal)
  | failedCastErr (v : GoVal) (cause : GoErr)
  | perr (e : PErr)
  | valuerErr
  deriving Repr

/-- `true` on the error outcome. -/
def isError {α : Type} : Except GoErr α → Bool
  | .error _ => true
  | .ok _ => false

/-! ### Interface membership

`stringerText o = some s` iff the dynamic type of `o` implements
`fmt.Stringer`, with `s` the result of `String()`.  Protobuf messages
(`durationpb.Duration`, `timestamppb.Timestamp` and the `wrapperspb`
wrappers) render in the protobuf text format (the zero message renders
empty); `time.Duration` and `time.Time` render as in the `time`
package.  These strings only matter in engines whose `fmt.Stringer`
case precedes the corresponding concrete case, where they are fed to a
numeric/boolean/duration parser — and, like the real renderings, never
parse. -/

/-- Protobuf text-format rendering of a single-field wrapper message
(zero messages render as the empty string). -/
def pbField (name : String) (zero : Bool) (payload : String) : String :=
  if zero then "" else name ++ ":" ++ payload

/-- `String()` of the protobuf `Duration` message holding `d`
nanoseconds. -/
def pbDurText (d : Int) : String :=
  let sec := d.tdiv 1000000000
  let ns := d.tmod 1000000000
  (pbField "seconds" (sec = 0) (goFormatInt sec) ++
    (if sec ≠ 0 ∧ ns ≠ 0 then " " else "") ++
    pbField "nanos" (ns = 0) (goFormatInt ns))

/-- `String()` of the protobuf `Timestamp` message. -/
def pbTsText (sec nsec : Int) : String :=
  (pbField "seconds" (sec = 0) (goFormatInt sec) ++
    (if sec ≠ 0 ∧ nsec ≠ 0 then " " else "") ++
    pbField "nanos" (nsec = 0) (goFormatInt nsec))

/-- `fmt.Stringer` membership and `String()` result. -/
def stringerText : GoVal → Option String
  | .vstringer s => some s
  | .vstringerValuer s _ => some s
  | .vduration d => some (goDurationString d)
  | .vtime t => some (goTimeString t)
  | .vdurpb d => some (pbDurText d)
  | .vtspb sec nsec => some (pbTsText sec nsec)
  | .vwBool b => some (pbField "value" (b = false) "true")
  | .vwInt32 v => some (pbField "value" (v = 0) (goFormatInt v))
  | .vwInt64 v => some (pbField "value" (v = 0) (goFormatInt v))
  | .vwUInt32 v => some (pbField "value" (v = 0) (Nat.repr v))
  | .vwUInt64 v => some (pbField "value" (v = 0) (Nat.repr v))
  | .vwFloat q => some (pbField "value" (q = 0) (goFormatFloat 24 q))
  | .vwDouble q => some (pbField "value" (q = 0) (goFormatFloat 53 q))
  | .vwString s => some (pbField "value" (s = "") ("\"" ++ s ++ "\""))
  | .vwBytes s => some (pbField "value" (s = "") ("\"" ++ s ++ "\""))
  | _ => none

/-! ### The reflection slow path view

`indirectValue` (utils.go) resolves pointer indirection and the slow
paths switch on `reflect.Value.Kind()`.  `reflectView` maps a value to
the kind/payload the slow path observes: named types expose their
underlying kind, `time.Duration` is an `int64`, struct- and
pointer-to-struct-backed values (`time.Time`, the interface-capability
carriers, the protobuf messages) expose no supported kind. -/

inductive RVal where
  | rBool (b : Bool)
  | rInt (v : Int)
  | rUint (v : Nat)
  | rFloat (q : ℚ)
  | rString (s : String)
  | rBytes (s : String)
  | rSliceOther
  | rOther
  deriving Repr

/-- Kind and payload after `indirectValue`. -/
def reflectView : GoVal → RVal
  | .vbool b => .rBool b
  | .vint v => .rInt v
  | .vuint v => .rUint v
  | .vfloat64 q => .rFloat q
  | .vfloat32 q => .rFloat q
  | .vstring s => .rString s
  | .vbytes s => .rBytes s
  | .vduration d => .rInt d
  | .vnamed (.nbool b) => .rBool b
  | .vnamed (.nint v) => .rInt v
  | .vnamed (.nuint v) => .rUint v
  | .vnamed (.nfloat32 q) => .rFloat q
  | .vnamed (.nfloat64 q) => .rFloat q
  | .vnamed (.nstring s) => .rString s
  | .vnamed (.nbytes s) => .rBytes s
  | .vslice _ _ => .rSliceOther
  | _ => .rOther

/-! ## utils.go: trimZeroDecimal

The Go loop walks the string from its last character leftwards carrying
a `foundZero` flag: a `'0'` sets the flag, a `'.'` returns the prefix
before it when the flag is set, any other character returns the whole
string.  `tzdAux` performs the same walk on the reversed character list,
returning how many trailing characters to drop (`none` = keep all). -/

def tzdAux : List Char → Bool → Nat → Option Nat
  | [], _, _ => none
  | c :: rest, foundZero, pos =>
    if c = '.' then
      if foundZero then some (pos + 1) else tzdAux rest foundZero (pos + 1)
    else if c = '0' then tzdAux rest true (pos + 1)
    else none

/-- `trimZeroDecimal` (utils.go). -/
def trimZeroDecimal (s : String) : String :=
  match tzdAux s.data.reverse false 0 with
  | some k => String.mk (s.data.take (s.data.length - k))
  | none => s

/-! ## Reflection slow paths

One per engine, switching on the reflected kind after pointer
indirection (`boolVE`, `toSignedValueE`, `toUnsignedValueE`, `floatVE`,
`stringVE`, `durationVE`).  The timestamp engine has no slow path. -/

/-- `boolVE` (bool.go). -/
def boolVE (o : GoVal) : Except GoErr Bool :=
  match reflectView o with
  | .rBool b => .ok b
  | .rInt v => .ok (decide (v ≠ 0))
  | .rUint v => .ok (decide (v ≠ 0))
  | .rFloat q => .ok (decide (q ≠ 0))
  | .rString s =>
    match goParseBool s with
    | .error e => .error (.failedCastErr o (.perr e))
    | .ok b => .ok b
  | .rBytes s =>
    match goParseBool s with
    | .error e => .error (.failedCastErr o (.perr e))
    | .ok b => .ok b
  | .rSliceOther => .error (.failedCast o)
  | .rOther => .error (.failedCast o)

/-- `toSignedValueE` (int.go); `tw` is the bit width of the signed
target type. -/
def toSignedValueE (tw : Nat) (o : GoVal) : Except GoErr Int :=
  match reflectView o with
  | .rBool b => .ok (if b then 1 else 0)
  | .rInt v => .ok (signedWrap tw v)
  | .rUint v => .ok (signedWrap tw (v : Int))
  | .rFloat q => .ok (signedWrap tw (ratTrunc q))
  | .rString s =>
    match goParseInt0 (trimZeroDecimal s) with
    | .error e => .error (.failedCastErr o (.perr e))
    | .ok v => .ok (signedWrap tw v)
  | .rBytes s =>
    match goParseInt0 (trimZeroDecimal s) with
    | .error e => .error (.failedCastErr o (.perr e))
    | .ok v => .ok (signedWrap tw v)
  | .rSliceOther => .error (.failedCast o)
  | .rOther => .error (.failedCast o)

/-- `toUnsignedValueE` (uint.go); `tw` is the bit width of the unsigned
target type.  This slow path has no byte-slice branch (uint.go's kind
switch stops at `String`); the redundant negativity test Go performs on
the already-unsigned `ParseUint` result is vacuous and elided. -/
def toUnsignedValueE (tw : Nat) (o : GoVal) : Except GoErr Nat :=
  match reflectView o with
  | .rBool b => .ok (if b then 1 else 0)
  | .rInt v => if v < 0 then .error (.failedCast o) else .ok (uintWrap tw v)
  | .rUint v => .ok (uintWrap tw (v : Int))
  | .rFloat q => if q < 0 then .error (.failedCast o) else .ok (uintWrap tw (ratTrunc q))
  | .rString s =>
    match goParseUint0 (trimZeroDecimal s) with
    | .error e => .error (.failedCastErr o (.perr e))
    | .ok v => .ok (uintWrap tw (v : Int))
  | _ => .error (.failedCast o)

/-- `floatVE` (float.go); `mb` is the mantissa width of the float
target type. -/
def floatVE (mb : Nat) (o : GoVal) : Except GoErr ℚ :=
  match reflectView o with
  | .rBool b => .ok (if b then 1 else 0)
  | .rInt v => .ok (floatRound mb (v : ℚ))
  | .rUint v => .ok (floatRound mb (v : ℚ))
  | .rFloat q => .ok (floatRound mb q)
  | .rString s =>
    match goParseFloat64 s with
    | .error e => .error (.failedCastErr o (.perr e))
    | .ok q => .ok (floatRound mb q)
  | .rBytes s =>
    match goParseFloat64 s with
    | .error e => .error (.failedCastErr o (.perr e))
    | .ok q => .ok (floatRound mb q)
  | .rSliceOther => .error (.failedCast o)
  | .rOther => .error (.failedCast o)

/-- `stringVE` (string.go).  Note the float branch: the source formats
`v.Float()` with `strconv.FormatFloat(·, 'f', -1, 64)` for Float32 and
Float64 kinds alike, hence the fixed 53-bit mantissa here. -/
def stringVE (o : GoVal) : Except GoErr String :=
  match reflectView o with
  | .rBool b => .ok (goFormatBool b)
  | .rInt v => .ok (goFormatInt v)
  | .rUint v => .ok (Nat.repr v)
  | .rFloat q => .ok (goFormatFloat 53 q)
  | .rString s => .ok s
  | .rBytes s => .ok s
  | .rSliceOther => .error (.failedCast o)
  | .rOther => .error (.failedCast o)

/-- `durationVE` (duration.go). -/
def durationVE (o : GoVal) : Except GoErr Int :=
  match reflectView o with
  | .rInt v => .ok v
  | .rUint v => .ok (signedWrap 64 (v : Int))
  | .rFloat q => .ok (ratTrunc q)
  | .rString s =>
    match goParseDuration s with
    | .error e => .error (.failedCastErr o (.perr e))
    | .ok d => .ok d
  | .rBytes s =>
    match goParseDuration s with
    | .error e => .error (.failedCastErr o (.perr e))
    | .ok d => .ok d
  | _ => .error (.failedCast o)

/-! ## The scalar fast-path engines

Each definition follows its source type switch arm by arm, in source
order.  Interface cases (`fmt.Stringer`, `driver.Valuer`) are resolved
per engine: the constructors a given interface case captures are exactly
those implementing the interface that no earlier case consumed. -/

/-- `floatE` (float.go); `mb` is the target mantissa width (24 for a
float32 target, 53 for float64).  `driver.Valuer` precedes
`fmt.Stringer` in this engine, so `vstringerValuer` takes the valuer
arm. -/
def floatE (mb : Nat) : GoVal → Except GoErr ℚ
  | .vnil => .ok 0
  | .vbool b => .ok (if b then 1 else 0)
  | .vfloat64 q => .ok (floatRound mb q)
  | .vfloat32 q => .ok (floatRound mb q)
  | .vint v => .ok (floatRound mb (v : ℚ))
  | .vuint v => .ok (floatRound mb (v : ℚ))
  | .vstring s =>
    match goParseFloat64 s with
    | .error e => .error (.failedCastErr (.vstring s) (.perr e))
    | .ok q => .ok (floatRound mb q)
  | .vbytes s =>
    match goParseFloat64 s with
    | .error e => .error (.failedCastErr (.vbytes s) (.perr e))
    | .ok q => .ok (floatRound mb q)
  | .vduration d => .ok (floatRound mb (d : ℚ))
  | .vvaluer g =>
    match floatE mb g with
    | .ok r => .ok r
    | .error e => .error (.failedCastErr (.vvaluer g) e)
  | .vvaluerErr => .error (.failedCastErr .vvaluerErr .valuerErr)
  | .vstringerValuer s g =>
    match floatE mb g with
    | .ok r => .ok r
    | .error e => .error (.failedCastErr (.vstringerValuer s g) e)
  | .vdurpb d => .ok (floatRound mb (d : ℚ))
  | .vwBool b => .ok (if b then 1 else 0)
  | .vwDouble q => .ok (floatRound mb q)
  | .vwFloat q => .ok (floatRound mb q)
  | .vwInt64 v => .ok (floatRound mb (v : ℚ))
  | .vwInt32 v => .ok (floatRound mb (v : ℚ))
  | .vwUInt64 v => .ok (floatRound mb (v : ℚ))
  | .vwUInt32 v => .ok (floatRound mb (v : ℚ))
  | .vwString s =>
    match goParseFloat64 s with
    | .error e => .error (.failedCastErr (.vwString s) (.perr e))
    | .ok q => .ok (floatRound mb q)
  | .vwBytes s =>
    match goParseFloat64 s with
    | .error e => .error (.failedCastErr (.vwBytes s) (.perr e))
    | .ok q => .ok (floatRound mb q)
  | o =>
    -- case fmt.Stringer (captures vstringer, vtspb, vtime), then slow path
    match stringerText o with
    | some str =>
      match goParseFloat64 str with
      | .error e => .error (.failedCastErr o (.perr e))
      | .ok q => .ok (floatRound mb q)
    | none => floatVE mb o

/-- `intE` (int.go, the documented copy); `tw` is the target bit width.
`driver.Valuer` precedes `fmt.Stringer` in this engine, so
`vstringerValuer` takes the valuer arm; a `*timestamppb.Timestamp`
converts to Unix milliseconds. -/
def intE (tw : Nat) : GoVal → Except GoErr Int
  | .vnil => .ok 0
  | .vbool b => .ok (if b then 1 else 0)
  | .vfloat64 q => .ok (signedWrap tw (ratTrunc q))
  | .vfloat32 q => .ok (signedWrap tw (ratTrunc q))
  | .vint v => .ok (signedWrap tw v)
  | .vuint v => .ok (signedWrap tw (v : Int))
  | .vstring s =>
    match goParseInt0 (trimZeroDecimal s) with
    | .error e => .error (.failedCastErr (.vstring s) (.perr e))
    | .ok v => .ok (signedWrap tw v)
  | .vbytes s =>
    match goParseInt0 (trimZeroDecimal s) with
    | .error e => .error (.failedCastErr (.vbytes s) (.perr e))
    | .ok v => .ok (signedWrap tw v)
  | .vduration d => .ok (signedWrap tw d)
  | .vdurpb d => .ok (signedWrap tw d)
  | .vtspb sec nsec => .ok (signedWrap tw (GoTime.unixMilli ⟨sec, nsec⟩))
  | .vwBool b => .ok (if b then 1 else 0)
  | .vwDouble q => .ok (signedWrap tw (ratTrunc q))
  | .vwFloat q => .ok (signedWrap tw (ratTrunc q))
  | .vwInt64 v => .ok (signedWrap tw v)
  | .vwInt32 v => .ok (signedWrap tw v)
  | .vwUInt64 v => .ok (signedWrap tw (v : Int))
  | .vwUInt32 v => .ok (signedWrap tw (v : Int))
  | .vwString s =>
    match goParseInt0 (trimZeroDecimal s) with
    | .error e => .error (.failedCastErr (.vwString s) (.perr e))
    | .ok v => .ok (signedWrap tw v)
  | .vwBytes s =>
    match goParseInt0 (trimZeroDecimal s) with
    | .error e => .error (.failedCastErr (.vwBytes s) (.perr e))
    | .ok v => .ok (signedWrap tw v)
  | .vvaluer g =>
    match intE tw g with
    | .ok r => .ok r
    | .error e => .error (.failedCastErr (.vvaluer g) e)
  | .vvaluerErr => .error (.failedCastErr .vvaluerErr .valuerErr)
  | .vstringerValuer s g =>
    match intE tw g with
    | .ok r => .ok r
    | .error e => .error (.failedCastErr (.vstringerValuer s g) e)
  | o =>
    -- case fmt.Stringer (captures vstringer, vtime), then slow path
    match stringerText o with
    | some str =>
      match goParseInt0 (trimZeroDecimal str) with
      | .error e => .error (.failedCastErr o (.perr e))
      | .ok v => .ok (signedWrap tw v)
    | none => toSignedValueE tw o

/-- `uintE` (uint.go); `tw` is the target bit width.  Negative sources
are hard errors; this engine has no `fmt.Stringer` case, and its
`driver.Valuer` case captures `vstringerValuer`. -/
def uintE (tw : Nat) : GoVal → Except GoErr Nat
  | .vnil => .ok 0
  | .vbool b => .ok (if b then 1 else 0)
  | .vint v =>
    if v < 0 then .error (.failedCast (.vint v)) else .ok (uintWrap tw v)
  | .vuint v => .ok (uintWrap tw (v : Int))
  | .vfloat64 q =>
    if q < 0 then .error (.failedCast (.vfloat64 q)) else .ok (uintWrap tw (ratTrunc q))
  | .vfloat32 q =>
    if q < 0 then .error (.failedCast (.vfloat32 q)) else .ok (uintWrap tw (ratTrunc q))
  | .vstring s =>
    match goParseUint0 (trimZeroDecimal s) with
    | .error e => .error (.failedCastErr (.vstring s) (.perr e))
    | .ok v => .ok (uintWrap tw (v : Int))
  | .vbytes s =>
    match goParseUint0 (trimZeroDecimal s) with
    | .error e => .error (.failedCastErr (.vbytes s) (.perr e))
    | .ok v => .ok (uintWrap tw (v : Int))
  | .vduration d =>
    if d < 0 then .error (.failedCast (.vduration d)) else .ok (uintWrap tw d)
  | .vvaluer g =>
    match uintE tw g with
    | .ok r => .ok r
    | .error e => .error (.failedCastErr (.vvaluer g) e)
  | .vvaluerErr => .error (.failedCastErr .vvaluerErr .valuerErr)
  | .vstringerValuer s g =>
    match uintE tw g with
    | .ok r => .ok r
    | .error e => .error (.failedCastErr (.vstringerValuer s g) e)
  | .vdurpb d =>
    if d < 0 then .error (.failedCast (.vdurpb d)) else .ok (uintWrap tw d)
  | .vwBool b => .ok (if b then 1 else 0)
  | .vwInt64 v =>
    if v < 0 then .error (.failedCast (.vwInt64 v)) else .ok (uintWrap tw v)
  | .vwInt32 v =>
    if v < 0 then .error (.failedCast (.vwInt32 v)) else .ok (uintWrap tw v)
  | .vwUInt64 v => .ok (uintWrap tw (v : Int))
  | .vwUInt32 v => .ok (uintWrap tw (v : Int))
  | .vwDouble q =>
    if q < 0 then .error (.failedCast (.vwDouble q)) else .ok (uintWrap tw (ratTrunc q))
  | .vwFloat q =>
    if q < 0 then .error (.failedCast (.vwFloat q)) else .ok (uintWrap tw (ratTrunc q))
  | .vwString s =>
    match goParseUint0 (trimZeroDecimal s) with
    | .error e => .error (.failedCastErr (.vwString s) (.perr e))
    | .ok v => .ok (uintWrap tw (v : Int))
  | .vwBytes s =>
    match goParseUint0 (trimZeroDecimal s) with
    | .error e => .error (.failedCastErr (.vwBytes s) (.perr e))
    | .ok v => .ok (uintWrap tw (v : Int))
  | o => toUnsignedValueE tw o

/-- The numeric-group arm of `boolE`: convert through `FloatE[float64]`
and test for non-zero. -/
def boolNum (o : GoVal) : Except GoErr Bool :=
  match floatE 53 o with
  | .error e => .error (.failedCastErr o e)
  | .ok n => .ok (decide (n ≠ 0))

/-- `boolE` (bool.go).  `driver.Valuer` precedes `fmt.Stringer`, so
`vstringerValuer` takes the valuer arm; the numeric cases route through
the float engine. -/
def boolE : GoVal → Except GoErr Bool
  | .vnil => .ok false
  | .vbool b => .ok b
  | .vstring s =>
    match goParseBool s with
    | .error e => .error (.failedCastErr (.vstring s) (.perr e))
    | .ok b => .ok b
  | .vbytes s =>
    match goParseBool s with
    | .error e => .error (.failedCastErr (.vbytes s) (.perr e))
    | .ok b => .ok b
  | .vwBool b => .ok b
  | .vwString s =>
    match goParseBool s with
    | .error e => .error (.failedCastErr (.vwString s) (.perr e))
    | .ok b => .ok b
  | .vwBytes s =>
    match goParseBool s with
    | .error e => .error (.failedCastErr (.vwBytes s) (.perr e))
    | .ok b => .ok b
  | .vfloat64 q => boolNum (.vfloat64 q)
  | .vfloat32 q => boolNum (.vfloat32 q)
  | .vint v => boolNum (.vint v)
  | .vuint v => boolNum (.vuint v)
  | .vwDouble q => boolNum (.vwDouble q)
  | .vwFloat q => boolNum (.vwFloat q)
  | .vwInt64 v => boolNum (.vwInt64 v)
  | .vwInt32 v => boolNum (.vwInt32 v)
  | .vwUInt64 v => boolNum (.vwUInt64 v)
  | .vwUInt32 v => boolNum (.vwUInt32 v)
  | .vvaluer g =>
    match boolE g with
    | .ok r => .ok r
    | .error e => .error (.failedCastErr (.vvaluer g) e)
  | .vvaluerErr => .error (.failedCastErr .vvaluerErr .valuerErr)
  | .vstringerValuer s g =>
    match boolE g with
    | .ok r => .ok r
    | .error e => .error (.failedCastErr (.vstringerValuer s g) e)
  | o =>
    -- case fmt.Stringer (captures vstringer, vduration, vdurpb, vtspb,
    -- vtime), then slow path
    match stringerText o with
    | some str =>
      match goParseBool str with
      | .error e => .error (.failedCastErr o (.perr e))
      | .ok b => .ok b
    | none => boolVE o

/-- `stringE` (string.go).  `driver.Valuer` precedes `fmt.Stringer`;
float32 sources format at 32-bit precision on this fast path. -/
def stringE : GoVal → Except GoErr String
  | .vnil => .ok ""
  | .vbool b => .ok (goFormatBool b)
  | .vfloat64 q => .ok (goFormatFloat 53 q)
  | .vfloat32 q => .ok (goFormatFloat 24 q)
  | .vint v => .ok (goFormatInt v)
  | .vuint v => .ok (Nat.repr v)
  | .vstring s => .ok s
  | .vbytes s => .ok s
  | .vduration d => .ok (goDurationString d)
  | .vtime t => .ok (goTimeRFC3339 t)
  | .vdurpb d => .ok (goDurationString d)
  | .vtspb sec nsec => .ok (goTimeRFC3339 ⟨sec, nsec⟩)
  | .vwBool b => .ok (goFormatBool b)
  | .vwDouble q => .ok (goFormatFloat 53 q)
  | .vwFloat q => .ok (goFormatFloat 24 q)
  | .vwInt64 v => .ok (goFormatInt v)
  | .vwInt32 v => .ok (goFormatInt v)
  | .vwUInt64 v => .ok (Nat.repr v)
  | .vwUInt32 v => .ok (Nat.repr v)
  | .vwString s => .ok s
  | .vwBytes s => .ok s
  | .vvaluer g =>
    match stringE g with
    | .ok r => .ok r
    | .error e => .error (.failedCastErr (.vvaluer g) e)
  | .vvaluerErr => .error (.failedCastErr .vvaluerErr .valuerErr)
  | .vstringerValuer s g =>
    match stringE g with
    | .ok r => .ok r
    | .error e => .error (.failedCastErr (.vstringerValuer s g) e)
  | o =>
    -- encoding.TextMarshaler and json.Marshaler sources are outside the
    -- modelled universe; case fmt.Stringer captures vstringer, then the
    -- slow path
    match stringerText o with
    | some str => .ok str
    | none => stringVE o

/-- The numeric-group arm of `durationE`: convert through
`intE[time.Duration]` (nanosecond ticks). -/
def durNum (o : GoVal) : Except GoErr Int :=
  match intE 64 o with
  | .error e => .error (.failedCastErr o e)
  | .ok d => .ok d

/-- `durationE` (duration.go).  Here `fmt.Stringer` is checked third,
before `time.Duration`, `driver.Valuer` and all protobuf cases; every
Stringer-implementing shape is therefore captured by the Stringer arm
and parsed as duration text (for a `time.Duration` source the
`String()` rendering round-trips; for protobuf messages the text never
parses, so those later concrete cases are dead code). -/
def durationE : GoVal → Except GoErr Int
  | .vnil => .ok 0
  | .vstring s =>
    match goParseDuration s with
    | .error e => .error (.failedCastErr (.vstring s) (.perr e))
    | .ok v => .ok v
  | .vbytes s =>
    match goParseDuration s with
    | .error e => .error (.failedCastErr (.vbytes s) (.perr e))
    | .ok v => .ok v
  | o =>
    match stringerText o with
    | some str =>
      match goParseDuration str with
      | .error e => .error (.failedCastErr o (.perr e))
      | .ok v => .ok v
    | none =>
      match o with
      | .vvaluer g =>
        match durationE g with
        | .ok r => .ok r
        | .error e => .error (.failedCastErr (.vvaluer g) e)
      | .vvaluerErr => .error (.failedCastErr .vvaluerErr .valuerErr)
      | .vfloat64 q => durNum (.vfloat64 q)
      | .vfloat32 q => durNum (.vfloat32 q)
      | .vint v => durNum (.vint v)
      | .vuint v => durNum (.vuint v)
      | o' => durationVE o'

/-- First layout of `TimeFormats` that parses, via the supplied layout
parser (`time.ParseInLocation` is the external parser; it is a
parameter of the embedding). -/
def tryFormats (parse : String → String → Loc → Option GoTime)
    (formats : List String) (s : String) (loc : Loc) : Option GoTime :=
  formats.findSome? (fun f => parse f s loc)

/-- `TimeFormats` (time.go), with the Go `time` package layout
constants expanded. -/
def TimeFormats : List String := [
  "01/02 03:04:05PM \x2706 -0700",          -- time.Layout
  "Mon Jan _2 15:04:05 2006",               -- time.ANSIC
  "Mon Jan _2 15:04:05 MST 2006",           -- time.UnixDate
  "Mon Jan 02 15:04:05 -0700 2006",         -- time.RubyDate
  "02 Jan 06 15:04 MST",                    -- time.RFC822
  "02 Jan 06 15:04 -0700",                  -- time.RFC822Z
  "Monday, 02-Jan-06 15:04:05 MST",         -- time.RFC850
  "Mon, 02 Jan 2006 15:04:05 MST",          -- time.RFC1123
  "Mon, 02 Jan 2006 15:04:05 -0700",        -- time.RFC1123Z
  "2006-01-02T15:04:05Z07:00",              -- time.RFC3339
  "2006-01-02T15:04:05.999999999Z07:00",    -- time.RFC3339Nano
  "3:04PM",                                 -- time.Kitchen
  "Jan _2 15:04:05",                        -- time.Stamp
  "Jan _2 15:04:05.000",                    -- time.StampMilli
  "Jan _2 15:04:05.000000",                 -- time.StampMicro
  "Jan _2 15:04:05.000000000",              -- time.StampNano
  "2006-01-02 15:04:05",                    -- time.DateTime
  "2006-01-02",                             -- time.DateOnly
  "15:04:05",                               -- time.TimeOnly
  "2006-01-02 15:04:05Z07:00",
  "02 Jan 2006",
  "2006-01-02 15:04:05 -07:00",
  "2006-01-02 15:04:05 -0700",
  "2006-01-02T15:04:05",
  "2006-01-02 15:04:05.999999999 -0700 MST",
  "2006-01-02T15:04:05-0700",
  "2006-01-02 15:04:05Z0700"]

/-- `timeInLocationE` (time.go), parameterized by the external layout
parser.  There is no reflection slow path: the default case is an
error.  The source's `case timestamppb.Timestamp` matches the
non-pointer message type, which no modelled shape inhabits; a
`*timestamppb.Timestamp` (`vtspb`) matches no case and lands in the
default error.  The recursive calls Go makes on the unwrapped
`wrapperspb` payloads are inlined on the string/bytes cases they reach. -/
def timeInLocationE (parse : String → String → Loc → Option GoTime) (loc : Loc) :
    GoVal → Except GoErr GoTime
  | .vnil => .ok GoTime.zero
  | .vstring s =>
    match tryFormats parse TimeFormats s loc with
    | some t => .ok t
    | none => .error (.failedCast (.vstring s))
  | .vbytes s =>
    match tryFormats parse TimeFormats s loc with
    | some t => .ok t
    | none => .error (.failedCast (.vbytes s))
  | .vtime t => .ok t
  | .vvaluer g =>
    match timeInLocationE parse loc g with
    | .ok r => .ok r
    | .error e => .error (.failedCastErr (.vvaluer g) e)
  | .vvaluerErr => .error (.failedCastErr .vvaluerErr .valuerErr)
  | .vstringerValuer s g =>
    -- this engine has no fmt.Stringer case, so driver.Valuer captures it
    match timeInLocationE parse loc g with
    | .ok r => .ok r
    | .error e => .error (.failedCastErr (.vstringerValuer s g) e)
  | .vwString s =>
    match tryFormats parse TimeFormats s loc with
    | some t => .ok t
    | none => .error (.failedCastErr (.vwString s) (.failedCast (.vstring s)))
  | .vwBytes s =>
    match tryFormats parse TimeFormats s loc with
    | some t => .ok t
    | none => .error (.failedCastErr (.vwBytes s) (.failedCast (.vbytes s)))
  | .vfloat64 q => timeNum (.vfloat64 q)
  | .vfloat32 q => timeNum (.vfloat32 q)
  | .vint v => timeNum (.vint v)
  | .vuint v => timeNum (.vuint v)
  | .vdurpb d => timeNum (.vdurpb d)
  | .vwInt64 v => timeNum (.vwInt64 v)
  | .vwInt32 v => timeNum (.vwInt32 v)
  | .vwUInt64 v => timeNum (.vwUInt64 v)
  | .vwUInt32 v => timeNum (.vwUInt32 v)
  | .vwDouble q => timeNum (.vwDouble q)
  | .vwFloat q => timeNum (.vwFloat q)
  | o => .error (.failedCast o)
where
  /-- The numeric-group arm: Unix-epoch seconds via `IntE[int64]`;
  the error is returned unwrapped, as in the source. -/
  timeNum (o : GoVal) : Except GoErr GoTime :=
    match intE 64 o with
    | .error e => .error e
    | .ok v => .ok (timeUnix v 0)

/-! ## Container engines (slice.go, interface.go) -/

/-- The element loop of `toSliceE`: convert in order, aborting at the
first failing element with that element's error. -/
def convAll {α : Type} (toFn : GoVal → Except GoErr α) : List GoVal → Except GoErr (List α)
  | [] => .ok []
  | x :: xs =>
    match toFn x with
    | .error e => .error e
    | .ok v =>
      match convAll toFn xs with
      | .error e => .error e
      | .ok vs => .ok (v :: vs)

/-- `toSliceE` (slice.go).  `tryCast` models the `o.(S)` dynamic-type
assertion for the target slice type `S` (on success Go returns
`slices.Clone(v)`, which as a value is the slice itself); otherwise a
slice-kind source is converted element by element, and anything else is
an error.  The `none`/`some` outer layer distinguishes the nil zero
slice from constructed results. -/
def toSliceE {α : Type} (tryCast : GoVal → Option (List α))
    (toFn : GoVal → Except GoErr α) (o : GoVal) : Except GoErr (Option (List α)) :=
  match o with
  | .vnil => .ok none
  | o =>
    match tryCast o with
    | some v => .ok (some v)
    | none =>
      match o with
      | .vslice _ xs => (convAll toFn xs).map some
      | _ => .error (.failedCast o)

/-- The `o.(S)` assertion for `S = []int64`: succeeds exactly on a
slice value of dynamic element type int64. -/
def castInt64Slice : GoVal → Option (List Int)
  | .vslice .tInt64 xs => xs.mapM (fun g => match g with | .vint v => some v | _ => none)
  | _ => none

/-- Insert into a map model, replacing an existing key
(`reflect.Value.SetMapIndex` semantics on an association list). -/
def insertAssoc {κ ν : Type} [DecidableEq κ] (l : List (κ × ν)) (k : κ) (v : ν) :
    List (κ × ν) :=
  if l.any (fun p => p.1 = k) then l.map (fun p => if p.1 = k then (k, v) else p)
  else l ++ [(k, v)]

/-- The key/value loop of `mapE`.  The source passes
`oValue.MapIndex(keyVal).Interface()` — the map **value** — to both the
key converter and the value converter (interface.go), so the stored key
is the converted value, and the source key `k0` is never consulted. -/
def mapConv {κ ν : Type} [DecidableEq κ] (key : GoVal → Except GoErr κ)
    (val : GoVal → Except GoErr ν) :
    List (GoVal × GoVal) → List (κ × ν) → Except GoErr (List (κ × ν))
  | [], acc => .ok acc
  | (_, v0) :: rest, acc =>
    match key v0 with
    | .error e => .error e
    | .ok k =>
      match val v0 with
      | .error e => .error e
      | .ok v => mapConv key val rest (insertAssoc acc k v)

/-- `mapE` (interface.go), parameterized by the external
`json.Unmarshal` decoder used on string sources.  The `none`/`some`
outer layer distinguishes the nil zero map from constructed results. -/
def mapE {κ ν : Type} [DecidableEq κ] (unm : String → Except PErr (List (κ × ν)))
    (key : GoVal → Except GoErr κ) (val : GoVal → Except GoErr ν) :
    GoVal → Except GoErr (Option (List (κ × ν)))
  | .vnil => .ok none
  | .vstring s =>
    match unm s with
    | .ok kvs => .ok (some kvs)
    | .error e => .error (.failedCastErr (.vstring s) (.perr e))
  | .vmap entries => (mapConv key val entries []).map some
  | o => .error (.failedCast o)

/-! ## Public entry points used by the claims (thin wrappers) -/

def BoolE : GoVal → Except GoErr Bool := boolE
def IntE (tw : Nat) : GoVal → Except GoErr Int := intE tw
def UintE (tw : Nat) : GoVal → Except GoErr Nat := uintE tw
def FloatE (mb : Nat) : GoVal → Except GoErr ℚ := floatE mb
def StringE : GoVal → Except GoErr String := stringE
def DurationE : GoVal → Except GoErr Int := durationE

/-- `TimeE` forwards to `TimeInLocationE` with `time.UTC`. -/
def TimeE (parse : String → String → Loc → Option GoTime) :
    GoVal → Except GoErr GoTime :=
  timeInLocationE parse .utc

/-- A layout parser that recognizes nothing; used to instantiate the
parser parameter at inputs whose conversion never consults it. -/
def noLayout : String → String → Loc → Option GoTime := fun _ _ _ => none

/-! ## Helper lemmas -/

/-- `trimZeroDecimal` only ever removes a suffix: its output is a prefix
of its input. -/
theorem trimZeroDecimal_is_take (s : String) :
    ∃ n, (trimZeroDecimal s).data = s.data.take n := by
  unfold trimZeroDecimal
  cases h : tzdAux s.data.reverse false 0 with
  | none => exact ⟨s.data.length, by simp⟩
  | some k => exact ⟨s.data.length - k, by simp⟩

/-- `ParseUint` rejects any input beginning with a minus sign. -/
theorem goParseUint0L_minus (cs : List Char) :
    goParseUint0L ('-' :: cs) = .error (.synErr "ParseUint" (String.mk ('-' :: cs))) := by
  rfl

/-- `signedWrap` is the identity on in-range values. -/
theorem signedWrap_eq_self (w : Nat) (v : Int)
    (h1 : -(2 ^ (w - 1)) ≤ v) (h2 : v < 2 ^ (w - 1)) (hw : 1 ≤ w) :
    signedWrap w v = v := by
  unfold signedWrap
  have hlow : 0 ≤ v + 2 ^ (w - 1) := by linarith
  have hsplit : (2 : Int) ^ w = 2 ^ (w - 1) * 2 := by
    rw [← pow_succ]
    congr 1
    omega
  have hhigh : v + 2 ^ (w - 1) < 2 ^ w := by
    rw [hsplit]; linarith
  rw [Int.emod_eq_of_lt hlow hhigh]
  ring

/-! ## Claim C1 -/

/-- C1: the claim states that `mapE` maps every source pair `(k, v)` to
`keyConverter(k) → valueConverter(v)`.  In fact the source feeds the map
*value* to the key converter as well (both converter calls receive
`oValue.MapIndex(keyVal).Interface()`), so converting
`map[string]string{"key": "42"}` with a string key converter and an
integer value converter yields `{"42": 42}` — the entry is re-keyed by
its own converted value, contradicting the claim (and the `MapE` doc
example in the source, which promises `{"key": 42}`). -/
theorem C1_mapE_rekeys_by_value :
    mapE (fun _ => .error .otherErr) stringE (intE 64)
        (.vmap [(.vstring "key", .vstring "42")]) = .ok (some [("42", (42 : Int))])
    ∧ mapE (fun _ => .error .otherErr) stringE (intE 64)
        (.vmap [(.vstring "key", .vstring "42")]) ≠ .ok (some [("key", (42 : Int))]) := by
  refine ⟨rfl, ?_⟩
  intro h
  have h2 : (Except.ok (some [("42", (42 : Int))]) :
      Except GoErr (Option (List (String × Int)))) = .ok (some [("key", 42)]) :=
    Eq.trans (by rfl) h
  simp at h2

/-! ## Claim C2 -/

/-- C2 (counterexample): the claim states that every scalar engine
checks the stringer capability before the valuer capability, so that a
value implementing both converts via its `String()` text.  In the
signed-integer engine the `driver.Valuer` case precedes the
`fmt.Stringer` case: a source whose `String()` is `"1"` but whose
`Value()` is `2` converts to `2`, while converting the `String()` text
gives `1`. -/
theorem C2_counterexample :
    intE 64 (.vstringerValuer "1" (.vint 2)) = .ok 2
    ∧ intE 64 (.vstring "1") = .ok 1
    ∧ (2 : Int) ≠ 1 :=
  ⟨rfl, rfl, by decide⟩

/-- C2 (amended): the scalar engines do not all check the stringer
capability first.  In the boolean (cited copy), signed-integer,
unsigned-integer, float and string engines the valuer capability is
checked before the stringer capability, so a source implementing both
converts by re-coercing its driver value; only the duration engine
checks the stringer first, parsing the `String()` text and ignoring the
valuer entirely. -/
theorem C2_valuer_checked_first (tw mb : Nat) (s : String) (g : GoVal) :
    (∀ r : Bool, boolE g = .ok r → boolE (.vstringerValuer s g) = .ok r)
    ∧ (∀ r : Int, intE tw g = .ok r → intE tw (.vstringerValuer s g) = .ok r)
    ∧ (∀ r : Nat, uintE tw g = .ok r → uintE tw (.vstringerValuer s g) = .ok r)
    ∧ (∀ r : ℚ, floatE mb g = .ok r → floatE mb (.vstringerValuer s g) = .ok r)
    ∧ (∀ r : String, stringE g = .ok r → stringE (.vstringerValuer s g) = .ok r)
    ∧ durationE (.vstringerValuer s g) =
        (match goParseDuration s with
         | .error e => .error (.failedCastErr (.vstringerValuer s g) (.perr e))
         | .ok v => .ok v) := by
  refine ⟨?_, ?_, ?_, ?_, ?_, rfl⟩
  · intro r h; simp [boolE, h]
  · intro r h; simp [intE, h]
  · intro r h; simp [uintE, h]
  · intro r h; simp [floatE, h]
  · intro r h
    have e : stringE (.vstringerValuer s g) =
        match stringE g with
        | .ok v => .ok v
        | .error e => .error (.failedCastErr (.vstringerValuer s g) e) := rfl
    rw [e, h]

/-- C2 (witness): five engines take the valuer path of a
both-capability source; the duration engine parses its stringer text. -/
theorem C2_witness :
    boolE (.vstringerValuer "1" (.vbool true)) = .ok true
    ∧ intE 64 (.vstringerValuer "1" (.vint 2)) = .ok 2
    ∧ uintE 64 (.vstringerValuer "1" (.vuint 2)) = .ok 2
    ∧ floatE 53 (.vstringerValuer "1" (.vbool true)) = .ok 1
    ∧ stringE (.vstringerValuer "1" (.vstring "x")) = .ok "x"
    ∧ durationE (.vstringerValuer "1h30m" (.vvaluer (.vint 2))) = .ok 5400000000000 := by
  refine ⟨(C2_valuer_checked_first 64 53 "1" (.vbool true)).1 true rfl,
    (C2_valuer_checked_first 64 53 "1" (.vint 2)).2.1 2 rfl,
    (C2_valuer_checked_first 64 53 "1" (.vuint 2)).2.2.1 2 rfl,
    (C2_valuer_checked_first 64 53 "1" (.vbool true)).2.2.2.1 1 rfl,
    (C2_valuer_checked_first 64 53 "1" (.vstring "x")).2.2.2.2.1 "x" rfl,
    ((C2_valuer_checked_first 64 53 "1h30m" (.vvaluer (.vint 2))).2.2.2.2.2).trans rfl⟩

/-! ## Claim C3 -/

/-- C3: of the four normalizer equations claimed, three hold, but
`trimZeroDecimal "5.10"` returns `"5.10"` unchanged, not `"5.1"`: the
walk from the right sees `'0'` then the non-zero digit `'1'` and
returns the whole string before reaching the decimal point.  The
function's own doc comment states `"5.10"` becomes `"5.1"`, so the code
contradicts its documentation. -/
theorem C3_trimZeroDecimal_eval :
    trimZeroDecimal "10.00" = "10"
    ∧ trimZeroDecimal "3.14" = "3.14"
    ∧ trimZeroDecimal "100" = "100"
    ∧ trimZeroDecimal "5.10" = "5.10"
    ∧ trimZeroDecimal "5.10" ≠ "5.1" :=
  ⟨rfl, rfl, rfl, rfl, by decide⟩

/-! ## Claim C4 -/

/-- C4 (counterexample): the claim states that all seven scalar engines,
the timestamp engine included, fall back to a reflection slow path, so
that a user-defined named integer type converts in every engine.  The
timestamp engine has no slow path: its default case is an error, and a
named integer value is rejected (while e.g. the signed-integer engine
accepts it). -/
theorem C4_counterexample :
    timeInLocationE noLayout .utc (.vnamed (.nint 5)) =
      .error (.failedCast (.vnamed (.nint 5)))
    ∧ intE 64 (.vnamed (.nint 5)) = .ok 5 :=
  ⟨rfl, rfl⟩

/-- C4 (amended): six of the seven scalar engines (boolean, signed
integer, unsigned integer, float, string, duration) fall back to the
reflection slow path, so a named integer type converts in each of them;
the timestamp engine has no slow path and errors on such a source,
whatever the layout parser and location. -/
theorem C4_slow_path_except_time
    (parse : String → String → Loc → Option GoTime) (loc : Loc)
    (tw mb : Nat) (v : Int) (h : 0 ≤ v) :
    boolE (.vnamed (.nint v)) = .ok (decide (v ≠ 0))
    ∧ intE tw (.vnamed (.nint v)) = .ok (signedWrap tw v)
    ∧ uintE tw (.vnamed (.nint v)) = .ok (uintWrap tw v)
    ∧ floatE mb (.vnamed (.nint v)) = .ok (floatRound mb (v : ℚ))
    ∧ stringE (.vnamed (.nint v)) = .ok (goFormatInt v)
    ∧ durationE (.vnamed (.nint v)) = .ok v
    ∧ timeInLocationE parse loc (.vnamed (.nint v)) =
        .error (.failedCast (.vnamed (.nint v))) := by
  refine ⟨rfl, rfl, ?_, rfl, rfl, rfl, rfl⟩
  simp [uintE, toUnsignedValueE, reflectView, not_lt.mpr h]

/-- C4 (witness). -/
theorem C4_witness :
    boolE (.vnamed (.nint 5)) = .ok (decide ((5 : Int) ≠ 0))
    ∧ intE 64 (.vnamed (.nint 5)) = .ok (signedWrap 64 5)
    ∧ uintE 64 (.vnamed (.nint 5)) = .ok (uintWrap 64 5)
    ∧ floatE 53 (.vnamed (.nint 5)) = .ok (floatRound 53 ((5 : Int) : ℚ))
    ∧ stringE (.vnamed (.nint 5)) = .ok (goFormatInt 5)
    ∧ durationE (.vnamed (.nint 5)) = .ok 5
    ∧ timeInLocationE noLayout .utc (.vnamed (.nint 5)) =
        .error (.failedCast (.vnamed (.nint 5))) :=
  C4_slow_path_except_time noLayout .utc 64 53 5 (by decide)

/-! ## Claim C5 -/

/-- C5: the claim states that fast path and slow path agree on every
value reachable by both.  For a float32 value the fast path of the
string engine formats at 32-bit precision
(`strconv.FormatFloat(float64(s), 'f', -1, 32)`), while the slow path —
reached by a named float32 type holding the same number — formats
`v.Float()` at 64-bit precision.  At the float32 value nearest 0.1
(13421773/2^27) the fast path yields "0.1" and the slow path
"0.10000000149011612". -/
theorem C5_float32_fast_slow_differ :
    stringE (.vfloat32 (mkRat 13421773 134217728)) = .ok "0.1"
    ∧ stringE (.vnamed (.nfloat32 (mkRat 13421773 134217728))) =
        .ok "0.10000000149011612"
    ∧ ("0.1" : String) ≠ "0.10000000149011612" :=
  ⟨rfl, rfl, by decide⟩

/-! ## Claim C6 -/

/-- C6: every engine — the seven scalar engines, the generic slice
conversion with any element converter and target-type test, and the
generic map conversion with any decoder and key/value converters —
returns the zero value of its target with no error on a nil source. -/
theorem C6_nil_gives_zero (tw mb : Nat)
    (parse : String → String → Loc → Option GoTime) (loc : Loc)
    (tryCast : GoVal → Option (List Int)) (toFn : GoVal → Except GoErr Int)
    (unm : String → Except PErr (List (String × Int)))
    (key : GoVal → Except GoErr String) (val : GoVal → Except GoErr Int) :
    boolE .vnil = .ok false
    ∧ intE tw .vnil = .ok 0
    ∧ uintE tw .vnil = .ok 0
    ∧ floatE mb .vnil = .ok 0
    ∧ stringE .vnil = .ok ""
    ∧ durationE .vnil = .ok 0
    ∧ timeInLocationE parse loc .vnil = .ok GoTime.zero
    ∧ toSliceE tryCast toFn .vnil = .ok none
    ∧ mapE unm key val .vnil = .ok none :=
  ⟨rfl, rfl, rfl, rfl, rfl, rfl, rfl, rfl, rfl⟩

/-! ## Claim C7 -/

/-- C7: every negative-valued source — negative signed integer, negative
float, negative duration (plain or protobuf), a wrapper carrying a
negative number, a valuer yielding a failing value, or text with a
leading minus sign — makes the unsigned engine fail; it never wraps. -/
theorem C7_uint_rejects_negative (tw : Nat) :
    (∀ v : Int, v < 0 → isError (uintE tw (.vint v)) = true)
    ∧ (∀ q : ℚ, q < 0 → isError (uintE tw (.vfloat64 q)) = true)
    ∧ (∀ q : ℚ, q < 0 → isError (uintE tw (.vfloat32 q)) = true)
    ∧ (∀ d : Int, d < 0 → isError (uintE tw (.vduration d)) = true)
    ∧ (∀ d : Int, d < 0 → isError (uintE tw (.vdurpb d)) = true)
    ∧ (∀ v : Int, v < 0 → isError (uintE tw (.vwInt64 v)) = true)
    ∧ (∀ v : Int, v < 0 → isError (uintE tw (.vwInt32 v)) = true)
    ∧ (∀ q : ℚ, q < 0 → isError (uintE tw (.vwDouble q)) = true)
    ∧ (∀ q : ℚ, q < 0 → isError (uintE tw (.vwFloat q)) = true)
    ∧ (∀ g : GoVal, isError (uintE tw g) = true →
        isError (uintE tw (.vvaluer g)) = true)
    ∧ (∀ cs : List Char,
        isError (uintE tw (.vstring (String.mk ('-' :: cs)))) = true) := by
  refine ⟨?_, ?_, ?_, ?_, ?_, ?_, ?_, ?_, ?_, ?_, ?_⟩
  · intro v h; simp [uintE, h, isError]
  · intro q h; simp [uintE, h, isError]
  · intro q h; simp [uintE, h, isError]
  · intro d h; simp [uintE, h, isError]
  · intro d h; simp [uintE, h, isError]
  · intro v h; simp [uintE, h, isError]
  · intro v h; simp [uintE, h, isError]
  · intro q h; simp [uintE, h, isError]
  · intro q h; simp [uintE, h, isError]
  · intro g h
    rcases hg : uintE tw g with e | r
    · simp [uintE, hg, isError]
    · rw [hg] at h; simp [isError] at h
  · intro cs
    obtain ⟨n, hn⟩ := trimZeroDecimal_is_take (String.mk ('-' :: cs))
    have hperr : ∃ e, goParseUint0 (trimZeroDecimal (String.mk ('-' :: cs))) = .error e := by
      unfold goParseUint0
      rw [hn]
      cases n with
      | zero => exact ⟨_, rfl⟩
      | succ m =>
        rw [show ('-' :: cs).take (m + 1) = '-' :: cs.take m from rfl]
        exact ⟨_, goParseUint0L_minus (cs.take m)⟩
    obtain ⟨e, he⟩ := hperr
    simp [uintE, he, isError]

/-- C7 (witness): `UintE(-1)` and `UintE("-1")` both error. -/
theorem C7_witness :
    isError (uintE 64 (.vint (-1))) = true
    ∧ isError (uintE 64 (.vstring (String.mk ('-' :: ['1'])))) = true := by
  obtain ⟨h1, _, _, _, _, _, _, _, _, _, h11⟩ := C7_uint_rejects_negative 64
  exact ⟨h1 (-1) (by decide), h11 ['1']⟩

/-! ## Claim C8 -/

/-- C8 (counterexample): the claim states that for every sequence-like
source, `toSliceE` converts element by element via the supplied
converter, and that any element failure aborts with that element's
error.  When the source's dynamic type already equals the target slice
type, Go returns a copy without invoking the converter: with a
converter that fails on every input, a `[]int64` source still converts
successfully instead of propagating the element error. -/
theorem C8_counterexample :
    (fun _ : GoVal => (.error (.failedCast .vnil) : Except GoErr Int)) (.vint 7)
        = .error (.failedCast .vnil)
    ∧ toSliceE castInt64Slice (fun _ => .error (.failedCast .vnil))
        (.vslice .tInt64 [.vint 7]) = .ok (some [(7 : Int)]) :=
  ⟨rfl, rfl⟩

/-- C8 (amended): when the source's dynamic type does not match the
target slice type, `toSliceE` converts element by element in order
(aborting at the first failing element with exactly that element's
error and no partial result), and the element count is preserved on
success; when the dynamic type matches, a copy of the source is
returned without invoking the converter. -/
theorem C8_elementwise {α : Type} (tryCast : GoVal → Option (List α))
    (toFn : GoVal → Except GoErr α) (tag : ElemTag) (xs : List GoVal) :
    (tryCast (.vslice tag xs) = none →
      toSliceE tryCast toFn (.vslice tag xs) = (convAll toFn xs).map some
      ∧ ∀ e, convAll toFn xs = .error e →
          toSliceE tryCast toFn (.vslice tag xs) = .error e)
    ∧ (∀ ys, convAll toFn xs = .ok ys → ys.length = xs.length)
    ∧ (∀ v, tryCast (.vslice tag xs) = some v →
        toSliceE tryCast toFn (.vslice tag xs) = .ok (some v)) := by
  refine ⟨fun h => ⟨by simp [toSliceE, h], fun e he => by simp [toSliceE, h, he, Except.map]⟩,
    ?_, fun v h => by simp [toSliceE, h]⟩
  intro ys h
  induction xs generalizing ys with
  | nil => cases h; rfl
  | cons x xs ih =>
    unfold convAll at h
    rcases hx : toFn x with e | v
    · rw [hx] at h; cases h
    · rw [hx] at h
      rcases hxs : convAll toFn xs with e | vs
      · rw [hxs] at h; cases h
      · rw [hxs] at h
        cases h
        simpa using ih vs hxs

/-- C8 (witness). -/
theorem C8_witness :
    toSliceE (fun _ => none) (intE 64)
        (.vslice .tString [.vstring "1", .vstring "2", .vstring "3"])
      = (convAll (intE 64) [.vstring "1", .vstring "2", .vstring "3"]).map some :=
  ((C8_elementwise (fun _ => none) (intE 64) .tString
      [.vstring "1", .vstring "2", .vstring "3"]).1 rfl).1

/-! ## Claim C10 -/

/-- C10: a non-nil protobuf timestamp converts through the signed-integer
engine to its Unix epoch time in **milliseconds**, while the timestamp
engine interprets a plain integer source as Unix epoch **seconds** —
two different units for the same instant. -/
theorem C10_tspb_millis_vs_seconds
    (parse : String → String → Loc → Option GoTime) (loc : Loc)
    (sec nsec v : Int)
    (hms1 : -(2 ^ 63) ≤ sec * 1000 + nsec.tdiv 1000000)
    (hms2 : sec * 1000 + nsec.tdiv 1000000 < 2 ^ 63)
    (hv1 : -(2 ^ 63) ≤ v) (hv2 : v < 2 ^ 63) :
    intE 64 (.vtspb sec nsec) = .ok (sec * 1000 + nsec.tdiv 1000000)
    ∧ timeInLocationE parse loc (.vint v) = .ok (timeUnix v 0) := by
  constructor
  · show Except.ok (signedWrap 64 (GoTime.unixMilli ⟨sec, nsec⟩)) = _
    rw [show GoTime.unixMilli ⟨sec, nsec⟩ = sec * 1000 + nsec.tdiv 1000000 from rfl,
      signedWrap_eq_self 64 _ hms1 hms2 (by decide)]
  · show timeInLocationE.timeNum (.vint v) = _
    unfold timeInLocationE.timeNum
    rw [show intE 64 (.vint v) = .ok (signedWrap 64 v) from rfl,
      signedWrap_eq_self 64 v hv1 hv2 (by decide)]

/-- C10 (witness): a timestamp of 2 s + 500 ms becomes the integer 2500,
while the integer 1600000000 becomes the instant with Unix seconds
1600000000. -/
theorem C10_witness :
    intE 64 (.vtspb 2 500000000) = .ok ((2 : Int) * 1000 + (500000000 : Int).tdiv 1000000)
    ∧ timeInLocationE noLayout .utc (.vint 1600000000) = .ok (timeUnix 1600000000 0) :=
  C10_tspb_millis_vs_seconds noLayout .utc 2 500000000 1600000000
    (by decide) (by decide) (by decide) (by decide)

end Gonv
